import Mathlib

/-
Verification of the terminal image rendering core of pdf-cli.

The Go source is embedded shallowly:
  * float64 arithmetic is modelled over ℚ (the computations involved are
    exact: products, quotients and comparisons of values derived from
    integer inputs and fixed decimal constants);
  * Go's `int(x)` conversion of a float truncates toward zero, modelled by
    `trunc` below;
  * machine integers are modelled by Int/Nat (no computation here comes
    near an overflow boundary);
  * bitmaps are width/height plus a pixel function; the external
    rasterizer, filesystem and PNG encoder are oracles passed in as data.
-/

namespace PdfCli

/-- Truncation toward zero: the semantics of Go's `int(x)` conversion from
float to int, for the in-range values arising in this program. -/
def trunc (x : ℚ) : Int := if 0 ≤ x then ⌊x⌋ else ⌈x⌉

/-- The fit mode configuration `d.fitMode`, one of "height", "width" and
the default "auto" (the Go switch treats any other string as "auto"). -/
inductive FitMode
  | height
  | width
  | auto
deriving DecidableEq

/-- Lines 56-68 of savePageAsImage: subtract the fixed padding (4 columns,
3 rows), default a zero scale factor to 1.0, and convert the effective
character extents to target pixel extents. -/
def targetPixels (pixelsPerChar pixelsPerLine : ℚ) (termWidth termHeight : Int)
    (scaleFactor : ℚ) : Int × Int :=
  let horizontalPadding : Int := 4
  let verticalPadding : Int := 3
  let effectiveWidth := termWidth - horizontalPadding
  let effectiveHeight := termHeight - verticalPadding
  let scale := if scaleFactor = 0 then 1 else scaleFactor
  (trunc ((effectiveWidth : ℚ) * pixelsPerChar * scale),
   trunc ((effectiveHeight : ℚ) * pixelsPerLine * scale))

/-- Lines 81-100 of savePageAsImage: the fit-mode switch computing
(finalWidth, finalHeight) from the aspect ratio and the target pixel
extents. -/
def fitDims (mode : FitMode) (aspectRatio : ℚ)
    (targetPixelWidth targetPixelHeight : Int) : Int × Int :=
  match mode with
  | .height =>
    let finalHeight := targetPixelHeight
    let finalWidth := trunc ((finalHeight : ℚ) / aspectRatio)
    if finalWidth > targetPixelWidth then
      (targetPixelWidth, trunc ((targetPixelWidth : ℚ) * aspectRatio))
    else
      (finalWidth, finalHeight)
  | .width =>
    (targetPixelWidth, trunc ((targetPixelWidth : ℚ) * aspectRatio))
  | .auto =>
    let finalWidth := targetPixelWidth
    let finalHeight := trunc ((finalWidth : ℚ) * aspectRatio)
    if finalHeight > targetPixelHeight then
      (trunc ((targetPixelHeight : ℚ) / aspectRatio), targetPixelHeight)
    else
      (finalWidth, finalHeight)

/-- Lines 102-108 of savePageAsImage: the DPI that makes the 72-DPI
reference page match the final dimensions along each axis, taking the
smaller of the two. -/
def rawDPI (finalWidth finalHeight : Int) (pageWidthAt72 pageHeightAt72 : Nat) : ℚ :=
  let dpiForWidth := (finalWidth : ℚ) / (pageWidthAt72 : ℚ) * 72
  let dpiForHeight := (finalHeight : ℚ) / (pageHeightAt72 : ℚ) * 72
  if dpiForHeight < dpiForWidth then dpiForHeight else dpiForWidth

/-- Lines 110-123 of savePageAsImage: raise the DPI to at least 36, then
cap it at 300 for kitty and at 100 for every other terminal type. -/
def clampDPI (dpi0 : ℚ) (termType : String) : ℚ :=
  let dpi1 := if dpi0 < 36 then 36 else dpi0
  let maxDPI : ℚ := if termType = "kitty" then 300 else 100
  if dpi1 > maxDPI then maxDPI else dpi1

theorem trunc_of_nonneg {x : ℚ} (h : 0 ≤ x) : trunc x = ⌊x⌋ := if_pos h

theorem trunc_le_self_of_nonneg {x : ℚ} (h : 0 ≤ x) : (trunc x : ℚ) ≤ x := by
  rw [trunc_of_nonneg h]
  exact Int.floor_le x

/-- The C1 claim, part of the fit-planner analysis: in auto mode with a
positive aspect ratio and non-negative targets, neither final dimension
exceeds its target. -/
theorem fitDims_auto_le (a : ℚ) (tPW tPH : Int) (ha : 0 < a)
    (hW : 0 ≤ tPW) (hH : 0 ≤ tPH) :
    (fitDims .auto a tPW tPH).1 ≤ tPW ∧ (fitDims .auto a tPW tPH).2 ≤ tPH := by
  unfold fitDims
  by_cases hc : trunc ((tPW : ℚ) * a) > tPH
  · simp only [if_pos hc]
    refine ⟨?_, le_refl _⟩
    have hWa : (0 : ℚ) ≤ (tPW : ℚ) * a :=
      mul_nonneg (by exact_mod_cast hW) ha.le
    have hHa : (0 : ℚ) ≤ (tPH : ℚ) / a :=
      div_nonneg (by exact_mod_cast hH) ha.le
    rw [trunc_of_nonneg hHa]
    have h1 : (tPH : ℚ) < (tPW : ℚ) * a := by
      rw [trunc_of_nonneg hWa] at hc
      calc (tPH : ℚ) < (⌊(tPW : ℚ) * a⌋ : ℚ) := by exact_mod_cast hc
        _ ≤ (tPW : ℚ) * a := Int.floor_le _
    have h2 : (tPH : ℚ) / a < (tPW : ℚ) := (div_lt_iff₀ ha).mpr h1
    exact (Int.floor_lt.mpr h2).le
  · simp only [if_neg hc]
    exact ⟨le_refl _, not_lt.mp hc⟩

/-- The C4 claim: in height mode the final width never exceeds the target
pixel width, in either branch of the overflow check. -/
theorem fitDims_height_width_le (a : ℚ) (tPW tPH : Int) (ha : 0 < a)
    (hW : 0 ≤ tPW) (hH : 0 ≤ tPH) :
    (fitDims .height a tPW tPH).1 ≤ tPW := by
  unfold fitDims
  by_cases hc : trunc ((tPH : ℚ) / a) > tPW
  · simp only [if_pos hc]
    exact le_refl _
  · simp only [if_neg hc]
    exact not_lt.mp hc

/-- Witness for the C1 theorem at aspect ratio 1.414, targets 1368 and 1332. -/
theorem fitDims_auto_le_witness :
    (0 : ℚ) < 1414/1000 ∧ (0 : Int) ≤ 1368 ∧ (0 : Int) ≤ 1332 ∧
    ((fitDims .auto (1414/1000) 1368 1332).1 ≤ 1368 ∧
     (fitDims .auto (1414/1000) 1368 1332).2 ≤ 1332) :=
  ⟨by norm_num, by norm_num, by norm_num,
   fitDims_auto_le (1414/1000) 1368 1332 (by norm_num) (by norm_num) (by norm_num)⟩

/-- Witness for the C4 theorem at aspect ratio 1/2 (a wide page), where the
derived width overflows and the re-fix branch fires. -/
theorem fitDims_height_width_le_witness :
    (0 : ℚ) < 1/2 ∧ (0 : Int) ≤ 1000 ∧ (0 : Int) ≤ 900 ∧
    (fitDims .height (1/2) 1000 900).1 ≤ 1000 :=
  ⟨by norm_num, by norm_num, by norm_num,
   fitDims_height_width_le (1/2) 1000 900 (by norm_num) (by norm_num) (by norm_num)⟩

/-- The C2 claim: when the 72 DPI reference render has positive extents, the
DPI computed by lines 102-123 of savePageAsImage is the smaller of
dpiForWidth and dpiForHeight, clamped to [36, 300] for the kitty terminal
type and to [36, 100] for every other terminal type. -/
theorem seqClamp_eq_max_min (d m : ℚ) (hm : 36 ≤ m) :
    (if (if d < 36 then (36 : ℚ) else d) > m then m else if d < 36 then (36 : ℚ) else d)
      = max 36 (min d m) := by
  by_cases h1 : d < 36
  · rw [if_pos h1, if_neg (not_lt.mpr hm),
      min_eq_left (le_trans h1.le hm), max_eq_left h1.le]
  · by_cases h2 : d > m
    · rw [if_neg h1, if_pos h2, min_eq_right h2.le, max_eq_right hm]
    · rw [if_neg h1, if_neg h2,
        min_eq_left (not_lt.mp h2), max_eq_right (not_lt.mp h1)]

theorem clampDPI_rawDPI_eq_clamp (termType : String) (finalWidth finalHeight : Int)
    (refW refH : Nat) (hw : 0 < refW) (hh : 0 < refH) :
    clampDPI (rawDPI finalWidth finalHeight refW refH) termType =
      max 36 (min (min ((finalWidth : ℚ) / (refW : ℚ) * 72)
                      ((finalHeight : ℚ) / (refH : ℚ) * 72))
                  (if termType = "kitty" then 300 else 100)) := by
  have hmin : rawDPI finalWidth finalHeight refW refH =
      min ((finalWidth : ℚ) / (refW : ℚ) * 72) ((finalHeight : ℚ) / (refH : ℚ) * 72) := by
    unfold rawDPI
    rcases lt_or_le ((finalHeight : ℚ) / (refH : ℚ) * 72) ((finalWidth : ℚ) / (refW : ℚ) * 72) with h | h
    · rw [if_pos h, min_eq_right h.le]
    · rw [if_neg (not_lt.mpr h), min_eq_left h]
  have hm : (36 : ℚ) ≤ if termType = "kitty" then (300 : ℚ) else 100 := by
    split_ifs <;> norm_num
  rw [hmin]
  simp only [clampDPI]
  exact seqClamp_eq_max_min _ _ hm

/-- Witness for the C2 theorem on a US-letter reference render (612x792 at
72 DPI) under the kitty terminal type. -/
theorem clampDPI_rawDPI_eq_clamp_witness :
    0 < 612 ∧ 0 < 792 ∧
    clampDPI (rawDPI 500 700 612 792) "kitty" =
      max 36 (min (min ((500 : ℚ) / (612 : ℚ) * 72) ((700 : ℚ) / (792 : ℚ) * 72))
                  (if "kitty" = "kitty" then 300 else 100)) :=
  ⟨by norm_num, by norm_num,
   clampDPI_rawDPI_eq_clamp "kitty" 500 700 612 792 (by norm_num) (by norm_num)⟩

/-- The C3 scenario: cell size 18x36, 80 columns, 40 rows, aspect 1.414,
scale 1.0, auto fit. The padded effective extents are 76 columns and 37
rows, giving targets 1368x1332; the width-first derived height is 1934,
which overflows 1332, so the height-first pass yields 942x1332. -/
theorem savePageAsImage_scenario_A4 :
    (80 : Int) - 4 = 76 ∧ (40 : Int) - 3 = 37 ∧
    targetPixels 18 36 80 40 1 = (1368, 1332) ∧
    trunc ((1368 : ℚ) * (1414/1000)) = 1934 ∧
    (1934 : Int) > 1332 ∧
    fitDims .auto (1414/1000) 1368 1332 = (942, 1332) := by
  have hfloor1 : trunc ((1368 : ℚ) * (1414/1000)) = 1934 := by
    rw [trunc, if_pos (by norm_num)]
    norm_num
  have hfloor2 : trunc ((1332 : ℚ) / (1414/1000)) = 942 := by
    rw [trunc, if_pos (by norm_num)]
    norm_num
  refine ⟨by norm_num, by norm_num, ?_, hfloor1, by norm_num, ?_⟩
  · simp only [targetPixels]
    norm_num [trunc]
  · simp only [fitDims]
    push_cast
    rw [if_pos (by rw [hfloor1]; norm_num)]
    rw [hfloor2]

/-- An RGBA pixel with 8-bit channels, as obtained in the source by
shifting the 16-bit values of color.RGBA() right by 8. -/
structure Pixel where
  r : Nat
  g : Nat
  b : Nat
  a : Nat
deriving DecidableEq, Repr

/-- A bitmap: the width and height of its bounds plus its pixel grid. -/
structure Bitmap where
  width : Nat
  height : Nat
  pix : Nat → Nat → Pixel

/-- Lines 452-454 of the source, one channel of simpleInvert: invert and
remap to the gray background range, 255 to 30 and 0 to 255. All arithmetic
is on unsigned machine integers (no overflow for channel values up to 255),
and / is integer division. -/
def invertChannel (c : Nat) : Nat := 30 + (255 - c) * 225 / 255

/-- The per-pixel body of simpleInvert: all three color channels remapped
by invertChannel, alpha passed through. -/
def simpleInvertPixel (p : Pixel) : Pixel :=
  ⟨invertChannel p.r, invertChannel p.g, invertChannel p.b, p.a⟩

/-- simpleInvert, lines 444-464: a new bitmap over the same bounds whose
every pixel is the remapped inversion of the source pixel. -/
def simpleInvert (src : Bitmap) : Bitmap :=
  ⟨src.width, src.height, fun x y => simpleInvertPixel (src.pix x y)⟩

/-- rgbToHSL, lines 466-495 of the source, over exact rationals. The Go
switch on max compares against r, then g, then b. -/
def rgbToHSL (r g b : ℚ) : ℚ × ℚ × ℚ :=
  let maxC := max r (max g b)
  let minC := min r (min g b)
  let l := (maxC + minC) / 2
  if maxC = minC then (0, 0, l)
  else
    let d := maxC - minC
    let s := if l > 1/2 then d / (2 - maxC - minC) else d / (maxC + minC)
    let h :=
      if maxC = r then (if g < b then (g - b) / d + 6 else (g - b) / d)
      else if maxC = g then (b - r) / d + 2
      else (r - g) / d + 4
    (h / 6, s, l)

/-- hueToRGB, lines 516-533 of the source. -/
def hueToRGB (p q t0 : ℚ) : ℚ :=
  let t1 := if t0 < 0 then t0 + 1 else t0
  let t := if t1 > 1 then t1 - 1 else t1
  if t < 1/6 then p + (q - p) * 6 * t
  else if t < 1/2 then q
  else if t < 2/3 then p + (q - p) * (2/3 - t) * 6
  else p

/-- hslToRGB, lines 497-514 of the source. -/
def hslToRGB (h s l : ℚ) : ℚ × ℚ × ℚ :=
  if s = 0 then (l, l, l)
  else
    let q := if l < 1/2 then l * (1 + s) else l + s - l * s
    let p := 2 * l - q
    (hueToRGB p q (h + 1/3), hueToRGB p q h, hueToRGB p q (h - 1/3))

/-- The per-pixel body of smartInvert, lines 423-437: normalize the 8-bit
channels to [0,1], convert to HSL, invert only the lightness with the
dark-gray floor 0.12, convert back, and quantize with Go's uint8(x*255)
truncation; alpha is passed through. -/
def smartInvertPixel (px : Pixel) : Pixel :=
  let r8 := (px.r : ℚ) / 255
  let g8 := (px.g : ℚ) / 255
  let b8 := (px.b : ℚ) / 255
  let hsl := rgbToHSL r8 g8 b8
  let l := 12/100 + (1 - hsl.2.2) * (88/100)
  let rgb := hslToRGB hsl.1 hsl.2.1 l
  ⟨(trunc (rgb.1 * 255)).toNat, (trunc (rgb.2.1 * 255)).toNat,
   (trunc (rgb.2.2 * 255)).toNat, px.a⟩

/-- smartInvert, lines 417-441: a new bitmap over the same bounds, each
pixel transformed by the lightness inversion. -/
def smartInvert (src : Bitmap) : Bitmap :=
  ⟨src.width, src.height, fun x y => smartInvertPixel (src.pix x y)⟩

/-- The C5 claim: every 8-bit channel value is mapped by the exact integer
formula 30 + (255 - c) * 225 / 255, the output always lies in [30, 255],
the pure white pixel maps to (30,30,30) with alpha preserved, and a black
channel maps to 255. -/
theorem simpleInvert_channel_range :
    (∀ c : Fin 256, invertChannel c.val = 30 + (255 - c.val) * 225 / 255 ∧
      30 ≤ invertChannel c.val ∧ invertChannel c.val ≤ 255) ∧
    simpleInvertPixel ⟨255, 255, 255, 255⟩ = ⟨30, 30, 30, 255⟩ ∧
    invertChannel 0 = 255 := by
  refine ⟨?_, by decide, by decide⟩
  set_option maxRecDepth 4096 in decide

/-- The C6 claim: smartInvert and simpleInvert both keep the bounds of the
input bitmap, and smartInvert transforms every pixel by converting RGB to
hue/saturation/lightness, replacing only the lightness by
0.12 + (1 - l) * 0.88, converting back to RGB with hue and saturation
passed through unchanged, and keeping the alpha channel. -/
theorem smartInvert_hsl_and_bounds (src : Bitmap) :
    (smartInvert src).width = src.width ∧
    (smartInvert src).height = src.height ∧
    (simpleInvert src).width = src.width ∧
    (simpleInvert src).height = src.height ∧
    ∀ x y,
      (smartInvert src).pix x y =
        (let p := src.pix x y
         let hsl := rgbToHSL ((p.r : ℚ) / 255) ((p.g : ℚ) / 255) ((p.b : ℚ) / 255)
         let lightness := 12/100 + (1 - hsl.2.2) * (88/100)
         let rgb := hslToRGB hsl.1 hsl.2.1 lightness
         Pixel.mk (trunc (rgb.1 * 255)).toNat (trunc (rgb.2.1 * 255)).toNat
           (trunc (rgb.2.2 * 255)).toNat p.a) :=
  ⟨rfl, rfl, rfl, rfl, fun _ _ => rfl⟩

/-- The result of the stacked composite layout: canvas extents, the
horizontal offset of page A, the position of page B when present, and the
canvas pixel grid (coordinates in the canvas space). -/
structure Composite where
  w : Int
  h : Int
  x1 : Int
  pos2 : Option (Int × Int)
  pix : Int → Int → Pixel

/-- The background color chosen on lines 307-310: white normally, dark
gray 30 in any dark mode. -/
def compositeBG (darkMode : String) : Pixel :=
  if darkMode ≠ "" then ⟨30, 30, 30, 255⟩ else ⟨255, 255, 255, 255⟩

/-- The vertical (stacked) branch of renderDualComposite, lines 295-323:
canvas width starts at page A's width and grows to page B's if larger;
canvas height is A's height plus the gap, plus B's height when B is
present; the canvas is filled with the background color, then page A is
drawn horizontally centered at the top and page B horizontally centered
below the gap. Draws of the fully opaque pages are modelled as
replacement inside their rectangles. -/
def renderDualCompositeVertical (pageA : Bitmap) (pageB : Option Bitmap)
    (gap : Int) (darkMode : String) : Composite :=
  let compositeW0 : Int := pageA.width
  let compositeH0 : Int := (pageA.height : Int) + gap
  let compositeW : Int :=
    match pageB with
    | some b => if (b.width : Int) > compositeW0 then (b.width : Int) else compositeW0
    | none => compositeW0
  let compositeH : Int :=
    match pageB with
    | some b => compositeH0 + (b.height : Int)
    | none => compositeH0
  let bgColor := compositeBG darkMode
  let canvas0 : Int → Int → Pixel := fun _ _ => bgColor
  let x1 : Int := (compositeW - (pageA.width : Int)) / 2
  let canvas1 : Int → Int → Pixel := fun x y =>
    if x1 ≤ x ∧ x < x1 + (pageA.width : Int) ∧ 0 ≤ y ∧ y < (pageA.height : Int) then
      pageA.pix (x - x1).toNat y.toNat
    else canvas0 x y
  match pageB with
  | none => ⟨compositeW, compositeH, x1, none, canvas1⟩
  | some b =>
    let x2 : Int := (compositeW - (b.width : Int)) / 2
    let y2 : Int := (pageA.height : Int) + gap
    ⟨compositeW, compositeH, x1, some (x2, y2), fun x y =>
      if x2 ≤ x ∧ x < x2 + (b.width : Int) ∧ y2 ≤ y ∧ y < y2 + (b.height : Int) then
        b.pix (x - x2).toNat (y - y2).toNat
      else canvas1 x y⟩

theorem if_gt_eq_max (a b : Int) : (if b > a then b else a) = max a b := by
  rcases lt_or_le a b with h | h
  · rw [if_pos h, max_eq_right h.le]
  · rw [if_neg (not_lt.mpr h), max_eq_left h]

/-- A small concrete page used as input data for the compositor claims. -/
def testPageA : Bitmap := ⟨50, 100, fun _ _ => ⟨0, 0, 0, 255⟩⟩

/-- A second small concrete page used as input data for the compositor
claims. -/
def testPageB : Bitmap := ⟨70, 60, fun _ _ => ⟨10, 20, 30, 255⟩⟩

/-- Counterexample to the C7 claim as stated: with page B absent and a gap
of 10 pixels, the stacked canvas height is A.height + gap = 110, not
A.height = 100 — the gap is added to the canvas height even when no second
page follows. -/
theorem renderDualCompositeVertical_absent_height_ne :
    ¬ ((renderDualCompositeVertical testPageA none 10 "").h = (testPageA.height : Int)) := by
  show ¬ ((110 : Int) = 100)
  decide

/-- The amended C7 claim: for the stacked composite with page B present the
canvas is max(A.width, B.width) wide and A.height + gap + B.height tall,
both pages are horizontally centered, and every canvas pixel outside the
two page rectangles is the background color; with page B absent the canvas
is A.width wide and A.height + gap tall (B contributes 0 but the gap is
still added), page A is centered, and pixels outside A are background. -/
theorem renderDualCompositeVertical_layout (pageA b : Bitmap) (gap : Int)
    (darkMode : String) :
    ((renderDualCompositeVertical pageA (some b) gap darkMode).w =
        max (pageA.width : Int) (b.width : Int) ∧
     (renderDualCompositeVertical pageA (some b) gap darkMode).h =
        (pageA.height : Int) + gap + (b.height : Int) ∧
     (renderDualCompositeVertical pageA (some b) gap darkMode).x1 =
        ((renderDualCompositeVertical pageA (some b) gap darkMode).w - (pageA.width : Int)) / 2 ∧
     (renderDualCompositeVertical pageA (some b) gap darkMode).pos2 =
        some (((renderDualCompositeVertical pageA (some b) gap darkMode).w - (b.width : Int)) / 2,
              (pageA.height : Int) + gap) ∧
     ∀ x y,
       (¬ ((renderDualCompositeVertical pageA (some b) gap darkMode).x1 ≤ x ∧
           x < (renderDualCompositeVertical pageA (some b) gap darkMode).x1 + (pageA.width : Int) ∧
           0 ≤ y ∧ y < (pageA.height : Int))) →
       (¬ (((renderDualCompositeVertical pageA (some b) gap darkMode).w - (b.width : Int)) / 2 ≤ x ∧
           x < ((renderDualCompositeVertical pageA (some b) gap darkMode).w - (b.width : Int)) / 2
                + (b.width : Int) ∧
           (pageA.height : Int) + gap ≤ y ∧
           y < (pageA.height : Int) + gap + (b.height : Int))) →
       (renderDualCompositeVertical pageA (some b) gap darkMode).pix x y = compositeBG darkMode) ∧
    ((renderDualCompositeVertical pageA none gap darkMode).w = (pageA.width : Int) ∧
     (renderDualCompositeVertical pageA none gap darkMode).h = (pageA.height : Int) + gap ∧
     (renderDualCompositeVertical pageA none gap darkMode).x1 =
        ((renderDualCompositeVertical pageA none gap darkMode).w - (pageA.width : Int)) / 2 ∧
     (renderDualCompositeVertical pageA none gap darkMode).pos2 = none ∧
     ∀ x y,
       (¬ ((renderDualCompositeVertical pageA none gap darkMode).x1 ≤ x ∧
           x < (renderDualCompositeVertical pageA none gap darkMode).x1 + (pageA.width : Int) ∧
           0 ≤ y ∧ y < (pageA.height : Int))) →
       (renderDualCompositeVertical pageA none gap darkMode).pix x y = compositeBG darkMode) := by
  refine ⟨⟨?_, rfl, rfl, rfl, ?_⟩, ⟨rfl, rfl, rfl, rfl, ?_⟩⟩
  · simp only [renderDualCompositeVertical]
    exact if_gt_eq_max _ _
  · intro x y hA hB
    simp only [renderDualCompositeVertical] at hA hB ⊢
    rw [if_neg hB, if_neg hA]
  · intro x y hA
    simp only [renderDualCompositeVertical] at hA ⊢
    rw [if_neg hA]

/-- Witness for the C7 theorem on the concrete pages 50x100 and 70x60 with
an 8 pixel gap: canvas 70x168, and a pixel in the gap band outside both
page rectangles carries the background color. -/
theorem renderDualCompositeVertical_layout_witness :
    (renderDualCompositeVertical testPageA (some testPageB) 8 "").w = 70 ∧
    (renderDualCompositeVertical testPageA (some testPageB) 8 "").h = 168 ∧
    (renderDualCompositeVertical testPageA (some testPageB) 8 "").pix 0 104 = compositeBG "" := by
  have h := renderDualCompositeVertical_layout testPageA testPageB 8 ""
  refine ⟨?_, ?_, ?_⟩
  · rw [h.1.1]
    decide
  · rw [h.1.2.1]
    decide
  · exact h.1.2.2.2.2 0 104 (by decide) (by decide)

/-- Lines 140-149 of savePageAsImage: measure the final bitmap and convert
pixel extents to character extents by integer truncation plus one, then
clamp the reported line count to the terminal height. Returns
(imageWidthInChars, actualLines). -/
def charExtents (actualWidth actualHeight : Nat) (pixelsPerChar pixelsPerLine : ℚ)
    (termHeight : Int) : Int × Int :=
  let actualLines0 := trunc ((actualHeight : ℚ) / pixelsPerLine) + 1
  let actualLines := if actualLines0 > termHeight then termHeight else actualLines0
  let imageWidthInChars := trunc ((actualWidth : ℚ) / pixelsPerChar) + 1
  (imageWidthInChars, actualLines)

/-- The C8 claim: with positive cell extents the reported character extents
are integer division plus one, which never under-reports (it is at least
the exact ceiling), and the reported line count is additionally clamped so
it never exceeds the caller's terminal height. -/
theorem charExtents_ceil_clamp (actualWidth actualHeight : Nat)
    (pixelsPerChar pixelsPerLine : ℚ) (termHeight : Int)
    (hc : 0 < pixelsPerChar) (hl : 0 < pixelsPerLine) :
    (charExtents actualWidth actualHeight pixelsPerChar pixelsPerLine termHeight).1 =
      ⌊(actualWidth : ℚ) / pixelsPerChar⌋ + 1 ∧
    (charExtents actualWidth actualHeight pixelsPerChar pixelsPerLine termHeight).2 =
      min (⌊(actualHeight : ℚ) / pixelsPerLine⌋ + 1) termHeight ∧
    ⌈(actualWidth : ℚ) / pixelsPerChar⌉ ≤ ⌊(actualWidth : ℚ) / pixelsPerChar⌋ + 1 ∧
    ⌈(actualHeight : ℚ) / pixelsPerLine⌉ ≤ ⌊(actualHeight : ℚ) / pixelsPerLine⌋ + 1 ∧
    (charExtents actualWidth actualHeight pixelsPerChar pixelsPerLine termHeight).2
      ≤ termHeight := by
  have hw : (0 : ℚ) ≤ (actualWidth : ℚ) / pixelsPerChar :=
    div_nonneg (by positivity) hc.le
  have hh : (0 : ℚ) ≤ (actualHeight : ℚ) / pixelsPerLine :=
    div_nonneg (by positivity) hl.le
  have hmin : ∀ a t : Int, (if a > t then t else a) = min a t := by
    intro a t
    rcases lt_or_le t a with h | h
    · rw [if_pos h, min_eq_right h.le]
    · rw [if_neg (not_lt.mpr h), min_eq_left h]
  refine ⟨?_, ?_, Int.ceil_le_floor_add_one _, Int.ceil_le_floor_add_one _, ?_⟩
  · simp only [charExtents, trunc_of_nonneg hw]
  · simp only [charExtents, trunc_of_nonneg hh]
    exact hmin _ _
  · simp only [charExtents]
    rcases lt_or_le termHeight (trunc ((actualHeight : ℚ) / pixelsPerLine) + 1) with h | h
    · rw [if_pos h]
    · rw [if_neg (not_lt.mpr h)]
      exact h

/-- Witness for the C8 theorem: a 942x1332 bitmap on 18x36 cells with 40
terminal rows. -/
theorem charExtents_ceil_clamp_witness :
    (0 : ℚ) < 18 ∧ (0 : ℚ) < 36 ∧
    ((charExtents 942 1332 18 36 40).1 = ⌊(942 : ℚ) / 18⌋ + 1 ∧
     (charExtents 942 1332 18 36 40).2 = min (⌊(1332 : ℚ) / 36⌋ + 1) 40 ∧
     ⌈(942 : ℚ) / 18⌉ ≤ ⌊(942 : ℚ) / 18⌋ + 1 ∧
     ⌈(1332 : ℚ) / 36⌉ ≤ ⌊(1332 : ℚ) / 36⌋ + 1 ∧
     (charExtents 942 1332 18 36 40).2 ≤ 40) := by
  have h := charExtents_ceil_clamp 942 1332 18 36 40 (by norm_num) (by norm_num)
  exact ⟨by norm_num, by norm_num, by exact_mod_cast h⟩

/-- The external effects consumed by savePageAsImage: the temp directory
creation (os.MkdirAll), the document rasterizer (d.doc.ImageDPI at a given
DPI), the output file creation (os.Create) and the PNG encoder
(png.Encode). Each is an oracle: None/ok means the call succeeds. -/
structure ExternalWorld where
  mkdirErr : Option String
  rasterize : ℚ → Except String Bitmap
  createErr : Option String
  encodeErr : Option String

/-- The non-path results returned by savePageAsImage on success. -/
structure RenderReport where
  actualLines : Int
  imageWidthInChars : Int
  actualWidth : Nat
  actualHeight : Nat

/-- Discriminator for the Except results of the render pipeline. -/
def isOkE {α : Type} : Except String α → Bool
  | .ok _ => true
  | .error _ => false

/-- The DPI planned by lines 53-123 of savePageAsImage given the 72 DPI
reference render: target pixels from the terminal geometry, fit dimensions
from the aspect ratio, raw DPI from the reference extents, clamped. -/
def plannedDPI (testImg : Bitmap) (termType : String) (pixelsPerChar pixelsPerLine : ℚ)
    (termWidth termHeight : Int) (scaleFactor : ℚ) (fitMode : FitMode) : ℚ :=
  let tp := targetPixels pixelsPerChar pixelsPerLine termWidth termHeight scaleFactor
  let aspectRatio := (testImg.height : ℚ) / (testImg.width : ℚ)
  let fd := fitDims fitMode aspectRatio tp.1 tp.2
  clampDPI (rawDPI fd.1 fd.2 testImg.width testImg.height) termType

/-- savePageAsImage, lines 48-167, with its external effects abstracted:
create the temp directory, take the 72 DPI reference render, plan the DPI,
render at that DPI, apply the dark-mode transform, measure, create the
file and encode. Every error exit of the source returns the underlying
error; the geometry in between is pure. -/
def savePageAsImage (world : ExternalWorld) (termWidth termHeight : Int)
    (termType : String) (pixelsPerChar pixelsPerLine : ℚ) (scaleFactor : ℚ)
    (fitMode : FitMode) (darkMode : String) : Except String RenderReport :=
  match world.mkdirErr with
  | some e => .error e
  | none =>
    match world.rasterize 72 with
    | .error e => .error e
    | .ok testImg =>
      let dpi := plannedDPI testImg termType pixelsPerChar pixelsPerLine
        termWidth termHeight scaleFactor fitMode
      match world.rasterize dpi with
      | .error e => .error e
      | .ok img =>
        let finalImg :=
          match darkMode with
          | "smart" => smartInvert img
          | "invert" => simpleInvert img
          | _ => img
        let ce := charExtents finalImg.width finalImg.height pixelsPerChar pixelsPerLine termHeight
        match world.createErr with
        | some e => .error e
        | none =>
          match world.encodeErr with
          | some e => .error e
          | none => .ok ⟨ce.2, ce.1, finalImg.width, finalImg.height⟩

/-- A concrete world whose rasterizer always succeeds but whose temp
directory creation fails. -/
def worldMkdirFails : ExternalWorld :=
  ⟨some "mkdir failed", fun _ => .ok testPageA, none, none⟩

/-- Counterexample to the C9 claim as stated: the rasterizer of this world
never fails (both calls the pipeline makes return ok), yet savePageAsImage
returns an error, because the temp-directory creation failed. So the
render operation does not fail only on rasterizer failure. -/
theorem savePageAsImage_error_without_raster_failure :
    savePageAsImage worldMkdirFails 80 40 "kitty" 18 36 1 .auto "" = .error "mkdir failed" ∧
    worldMkdirFails.rasterize 72 = .ok testPageA :=
  ⟨rfl, rfl⟩

/-- The amended C9 claim: savePageAsImage succeeds exactly when all five
external operations succeed — temp-directory creation, the 72 DPI
reference rasterization, the rasterization at the planned DPI, the output
file creation and the PNG encode — each failure being propagated as
returned; the pure geometry in between (any terminal extents, cell sizes,
scale, fit mode, dark mode) never causes a failure. -/
theorem savePageAsImage_ok_iff (world : ExternalWorld) (termWidth termHeight : Int)
    (termType : String) (pixelsPerChar pixelsPerLine : ℚ) (scaleFactor : ℚ)
    (fitMode : FitMode) (darkMode : String) :
    isOkE (savePageAsImage world termWidth termHeight termType pixelsPerChar
        pixelsPerLine scaleFactor fitMode darkMode) = true ↔
      world.mkdirErr = none ∧
      (∃ testImg, world.rasterize 72 = .ok testImg ∧
        (∃ img, world.rasterize (plannedDPI testImg termType pixelsPerChar pixelsPerLine
            termWidth termHeight scaleFactor fitMode) = .ok img)) ∧
      world.createErr = none ∧ world.encodeErr = none := by
  unfold savePageAsImage
  cases hm : world.mkdirErr with
  | some e => simp [hm, isOkE]
  | none =>
    cases hr : world.rasterize 72 with
    | error e => simp [hm, hr, isOkE]
    | ok testImg =>
      cases hr2 : world.rasterize (plannedDPI testImg termType pixelsPerChar pixelsPerLine
          termWidth termHeight scaleFactor fitMode) with
      | error e => simp [hm, hr, hr2, isOkE]
      | ok img =>
        cases hc : world.createErr with
        | some e => simp [hm, hr, hr2, hc, isOkE]
        | none =>
          cases he : world.encodeErr with
          | some e => simp [hm, hr, hr2, hc, he, isOkE]
          | none => simp [hm, hr, hr2, hc, he, isOkE]

/-- The viewer state relevant to page navigation: the current page index
and the number of content pages found. -/
structure ViewerState where
  currentPage : Int
  numTextPages : Nat
deriving DecidableEq

/-- The j and space branch of handleInput and the up/right arrows: advance
only when not already on the last content page. -/
def nextPage (s : ViewerState) : ViewerState :=
  if s.currentPage < (s.numTextPages : Int) - 1 then
    ⟨s.currentPage + 1, s.numTextPages⟩
  else s

/-- The k branch of handleInput and the down/left arrows: go back only
when not already on the first page. -/
def prevPage (s : ViewerState) : ViewerState :=
  if s.currentPage > 0 then ⟨s.currentPage - 1, s.numTextPages⟩ else s

/-- handleArrowKeys, lines 279-304: with at least two bytes read and the
first being 91 (the open bracket), byte 66 (down) and 68 (left) go back,
65 (up) and 67 (right) advance; anything else leaves the page unchanged. -/
def handleArrowKeys (buf : List Nat) (s : ViewerState) : ViewerState :=
  match buf with
  | b0 :: b1 :: _ =>
    if b0 = 91 then
      if b1 = 66 then prevPage s
      else if b1 = 65 then nextPage s
      else if b1 = 67 then nextPage s
      else if b1 = 68 then prevPage s
      else s
    else s
  | _ => s

/-- goToPage, lines 306-317: when the typed line parses as a number num
with 1 <= num <= len(textPages), jump to page num - 1; otherwise keep the
current page. -/
def goToPage (parsed : Option Int) (s : ViewerState) : ViewerState :=
  match parsed with
  | some num =>
    if 1 ≤ num ∧ num ≤ (s.numTextPages : Int) then ⟨num - 1, s.numTextPages⟩ else s
  | none => s

/-- handleInput, lines 257-277, keyed by the byte read: 113 is q (quit),
106 is j, 32 is space, 107 is k, 103 is g (with the parsed go-to input),
27 is ESC followed by the arrow-key bytes; the h help key and any other
byte leave the state unchanged. Returns (quit, new state). -/
def handleInput (c : Nat) (arrowBuf : List Nat) (gotoParsed : Option Int)
    (s : ViewerState) : Bool × ViewerState :=
  if c = 113 then (true, s)
  else if c = 106 ∨ c = 32 then (false, nextPage s)
  else if c = 107 then (false, prevPage s)
  else if c = 103 then (false, goToPage gotoParsed s)
  else if c = 27 then (false, handleArrowKeys arrowBuf s)
  else (false, s)

/-- The display-safety invariant of the viewer: the current page index is
a valid index into textPages. -/
def pageInvariant (s : ViewerState) : Prop :=
  0 ≤ s.currentPage ∧ s.currentPage ≤ (s.numTextPages : Int) - 1

instance (s : ViewerState) : Decidable (pageInvariant s) := by
  unfold pageInvariant
  infer_instance

theorem pageInvariant_mk (cp : Int) (n : Nat) :
    pageInvariant ⟨cp, n⟩ ↔ 0 ≤ cp ∧ cp ≤ (n : Int) - 1 := Iff.rfl

theorem nextPage_inv (s : ViewerState) (h : pageInvariant s) :
    pageInvariant (nextPage s) ∧ (nextPage s).numTextPages = s.numTextPages := by
  obtain ⟨h0, h1⟩ := h
  unfold nextPage
  split_ifs with hc
  · refine ⟨?_, rfl⟩
    rw [pageInvariant_mk]
    omega
  · exact ⟨⟨h0, h1⟩, rfl⟩

theorem prevPage_inv (s : ViewerState) (h : pageInvariant s) :
    pageInvariant (prevPage s) ∧ (prevPage s).numTextPages = s.numTextPages := by
  obtain ⟨h0, h1⟩ := h
  unfold prevPage
  split_ifs with hc
  · refine ⟨?_, rfl⟩
    rw [pageInvariant_mk]
    omega
  · exact ⟨⟨h0, h1⟩, rfl⟩

theorem handleArrowKeys_inv (buf : List Nat) (s : ViewerState) (h : pageInvariant s) :
    pageInvariant (handleArrowKeys buf s) ∧
    (handleArrowKeys buf s).numTextPages = s.numTextPages := by
  match buf with
  | [] => exact ⟨h, rfl⟩
  | [b0] => exact ⟨h, rfl⟩
  | b0 :: b1 :: rest =>
    simp only [handleArrowKeys]
    split_ifs with h1 h2 h3 h4 h5 <;>
      first
        | exact prevPage_inv s h
        | exact nextPage_inv s h
        | exact ⟨h, rfl⟩

theorem goToPage_inv (parsed : Option Int) (s : ViewerState) (h : pageInvariant s) :
    pageInvariant (goToPage parsed s) ∧ (goToPage parsed s).numTextPages = s.numTextPages := by
  obtain ⟨h0, h1⟩ := h
  cases parsed with
  | none => exact ⟨⟨h0, h1⟩, rfl⟩
  | some num =>
    simp only [goToPage]
    split_ifs with hc
    · refine ⟨?_, rfl⟩
      rw [pageInvariant_mk]
      omega
    · exact ⟨⟨h0, h1⟩, rfl⟩

/-- The C10 claim: with a non-empty textPages list, every input-handling
operation — handleInput on any byte (including j, space, k, g and the ESC
arrow-key dispatch) as well as handleArrowKeys and goToPage themselves —
preserves 0 <= currentPage <= len(textPages) - 1 and leaves the page list
length unchanged, so the index used for display stays in bounds. The
initial state currentPage = 0 satisfies the invariant. -/
theorem handleInput_preserves_invariant (s : ViewerState) (c : Nat)
    (arrowBuf : List Nat) (gotoParsed : Option Int)
    (hn : 1 ≤ s.numTextPages) (h : pageInvariant s) :
    pageInvariant (handleInput c arrowBuf gotoParsed s).2 ∧
    (handleInput c arrowBuf gotoParsed s).2.numTextPages = s.numTextPages ∧
    pageInvariant (handleArrowKeys arrowBuf s) ∧
    pageInvariant (goToPage gotoParsed s) ∧
    pageInvariant ⟨0, s.numTextPages⟩ := by
  refine ⟨?_, ?_, (handleArrowKeys_inv arrowBuf s h).1, (goToPage_inv gotoParsed s h).1,
    (pageInvariant_mk 0 s.numTextPages).mpr (by omega)⟩ <;>
  · unfold handleInput
    split_ifs with h1 h2 h3 h4 h5 <;>
      first
        | exact h
        | exact rfl
        | exact (nextPage_inv s h).1
        | exact (nextPage_inv s h).2
        | exact (prevPage_inv s h).1
        | exact (prevPage_inv s h).2
        | exact (goToPage_inv gotoParsed s h).1
        | exact (goToPage_inv gotoParsed s h).2
        | exact (handleArrowKeys_inv arrowBuf s h).1
        | exact (handleArrowKeys_inv arrowBuf s h).2

/-- Witness for the C10 theorem: five pages, currently on page 0, reading
the j key with an up-arrow buffer and a parsed go-to target of 3. -/
theorem handleInput_preserves_invariant_witness :
    1 ≤ 5 ∧ pageInvariant ⟨0, 5⟩ ∧
    (pageInvariant (handleInput 106 [91, 65] (some 3) ⟨0, 5⟩).2 ∧
     (handleInput 106 [91, 65] (some 3) ⟨0, 5⟩).2.numTextPages = 5 ∧
     pageInvariant (handleArrowKeys [91, 65] ⟨0, 5⟩) ∧
     pageInvariant (goToPage (some 3) ⟨0, 5⟩) ∧
     pageInvariant ⟨0, 5⟩) :=
  ⟨by decide, by decide,
   handleInput_preserves_invariant ⟨0, 5⟩ 106 [91, 65] (some 3) (by decide) (by decide)⟩

end PdfCli
